import Mathlib

/-!
Verification of the stringprep library (RFC 3454 profiles).

This file gives a shallow embedding of `src/lib.rs` and `src/tables.rs`.
Strings are modelled as lists of code points (`List Nat`).  The two
external collaborators — the Unicode NFKC normalization service and the
bidirectional-class lookup service, plus the `str::to_lowercase` Unicode
case mapping used by `nameprep` — are modelled as parameters collected in
a `Services` structure; theorems about the pipelines hold for all
instantiations (optionally constrained by the contracts the specification
assigns to those services).  The generated range tables `rfc3454::A_1`
and `rfc3454::B_2` are build-time artifacts absent from the sources, so
the table-consuming functions are parameterized by the table contents,
constrained by the sortedness/disjointness invariant the specification
requires of the generator.

A call of the Rust code that would panic (the `unwrap`s in the
bidirectional check) is modelled as `none`; a normal return is `some`.
-/

namespace Stringprep

/-- Bidirectional class values. The external service contract promises at
least the distinctions L, R, AL and "other". -/
inductive BidiClass where
  | L
  | R
  | AL
  | Other
deriving DecidableEq, Repr

/-- The external collaborators of the pipeline: the NFKC normalization
service, the bidirectional class lookup, and the Unicode lowercase
mapping that `nameprep` calls through `str::to_lowercase`. -/
structure Services where
  nfkc : List Nat → List Nat
  bidiClass : Nat → BidiClass
  lower : List Nat → List Nat

/-- `ErrorCause` from `src/lib.rs`: why a string failed stringprep. -/
inductive ErrorCause where
  /-- Contains stringprep prohibited characters. -/
  | ProhibitedCharacter (c : Nat)
  /-- Violates stringprep rules for bidirectional text. -/
  | ProhibitedBidirectionalText
deriving DecidableEq, Repr

deriving instance DecidableEq for Except

/-- Integer comparison, as Rust's `Ord::cmp` on unsigned integers. -/
def natCmp (a b : Nat) : Ordering :=
  if a < b then .lt else if b < a then .gt else .eq

/-- The loop of Rust's `slice::binary_search_by`, probing index
`left + (right - left) / 2`; comparator result `lt` moves `left` past the
probe, `gt` moves `right` to the probe, `eq` returns the probe index.
`Except.error i` is the `Err(insertion_point)` of the Rust API.  The
`fuel` argument makes the recursion structural; it only has to bound
`right - left`, which shrinks by at least one per iteration, and every
use below supplies the list length so the fuel is never exhausted. -/
def binarySearchLoop (g : Nat → Ordering) : Nat → Nat → Nat → Except Nat Nat
  | 0, left, _ => .error left
  | fuel + 1, left, right =>
    if left < right then
      match g (left + (right - left) / 2) with
      | .lt => binarySearchLoop g fuel (left + (right - left) / 2 + 1) right
      | .gt => binarySearchLoop g fuel left (left + (right - left) / 2)
      | .eq => .ok (left + (right - left) / 2)
    else
      .error left

/-- Rust's `slice::binary_search_by` over a list. -/
def binarySearchBy [Inhabited α] (f : α → Ordering) (xs : List α) : Except Nat Nat :=
  binarySearchLoop (fun i => f (xs.getD i default)) xs.length 0 xs.length

/-- A.1 membership test from `tables.rs`: binary search with the
comparator answering `Greater` when `start > c`, `Less` when `end < c`,
`Equal` otherwise.  The generated table `rfc3454::A_1` is a parameter. -/
def unassigned_code_point (A_1 : List (Nat × Nat)) (c : Nat) : Bool :=
  (binarySearchBy
      (fun e => if e.1 > c then .gt else if e.2 < c then .lt else .eq)
      A_1).isOk

/-- B.1 "commonly mapped to nothing" from `tables.rs`. -/
def commonly_mapped_to_nothing (c : Nat) : Bool :=
  c == 0x00AD || c == 0x034F || c == 0x1806 || c == 0x180B || c == 0x180C || c == 0x180D ||
  c == 0x200B || c == 0x200C || c == 0x200D || c == 0x2060 || c == 0xFE00 || c == 0xFE01 ||
  c == 0xFE02 || c == 0xFE03 || c == 0xFE04 || c == 0xFE05 || c == 0xFE06 || c == 0xFE07 ||
  c == 0xFE08 || c == 0xFE09 || c == 0xFE0A || c == 0xFE0B || c == 0xFE0C || c == 0xFE0D ||
  c == 0xFE0E || c == 0xFE0F || c == 0xFEFF

/-- B.2 case-fold lookup from `tables.rs`: `binary_search_by_key(&c, |e| e.0)`
on the generated table; a hit yields the entry's replacement sequence
(the chars of its string), a miss yields the single input code point.
The iterator `CaseFoldForNfkc` is flattened to the list it yields. -/
def case_fold_for_nfkc (B_2 : List (Nat × List Nat)) (c : Nat) : List Nat :=
  match binarySearchBy (fun e => natCmp e.1 c) B_2 with
  | .ok idx => (B_2.getD idx default).2
  | .error _ => [c]

/-- C.1.1 ASCII space characters. -/
def ascii_space_character (c : Nat) : Bool :=
  c == 0x20

/-- C.1.2 Non-ASCII space characters. -/
def non_ascii_space_character (c : Nat) : Bool :=
  c == 0x00A0 || c == 0x1680 || c == 0x2000 || c == 0x2001 || c == 0x2002 || c == 0x2003 ||
  c == 0x2004 || c == 0x2005 || c == 0x2006 || c == 0x2007 || c == 0x2008 || c == 0x2009 ||
  c == 0x200A || c == 0x200B || c == 0x202F || c == 0x205F || c == 0x3000

/-- C.2.1 ASCII control characters. -/
def ascii_control_character (c : Nat) : Bool :=
  c ≤ 0x001F || c == 0x007F

/-- C.2.2 Non-ASCII control characters. -/
def non_ascii_control_character (c : Nat) : Bool :=
  (0x0080 ≤ c && c ≤ 0x009F) ||
  c == 0x06DD ||
  c == 0x070F ||
  c == 0x180E ||
  c == 0x200C ||
  c == 0x200D ||
  c == 0x2028 ||
  c == 0x2029 ||
  c == 0x2060 ||
  c == 0x2061 ||
  c == 0x2062 ||
  c == 0x2063 ||
  (0x206A ≤ c && c ≤ 0x206F) ||
  c == 0xFEFF ||
  (0xFFF9 ≤ c && c ≤ 0xFFFC) ||
  (0x1D173 ≤ c && c ≤ 0x1D17A)

/-- C.3 Private use. -/
def private_use (c : Nat) : Bool :=
  (0xE000 ≤ c && c ≤ 0xF8FF) ||
  (0xF0000 ≤ c && c ≤ 0xFFFFD) ||
  (0x100000 ≤ c && c ≤ 0x10FFFD)

/-- C.4 Non-character code points. -/
def non_character_code_point (c : Nat) : Bool :=
  (0xFDD0 ≤ c && c ≤ 0xFDEF) ||
  (0xFFFE ≤ c && c ≤ 0xFFFF) ||
  (0x1FFFE ≤ c && c ≤ 0x1FFFF) ||
  (0x2FFFE ≤ c && c ≤ 0x2FFFF) ||
  (0x3FFFE ≤ c && c ≤ 0x3FFFF) ||
  (0x4FFFE ≤ c && c ≤ 0x4FFFF) ||
  (0x5FFFE ≤ c && c ≤ 0x5FFFF) ||
  (0x6FFFE ≤ c && c ≤ 0x6FFFF) ||
  (0x7FFFE ≤ c && c ≤ 0x7FFFF) ||
  (0x8FFFE ≤ c && c ≤ 0x8FFFF) ||
  (0x9FFFE ≤ c && c ≤ 0x9FFFF) ||
  (0xAFFFE ≤ c && c ≤ 0xAFFFF) ||
  (0xBFFFE ≤ c && c ≤ 0xBFFFF) ||
  (0xCFFFE ≤ c && c ≤ 0xCFFFF) ||
  (0xDFFFE ≤ c && c ≤ 0xDFFFF) ||
  (0xEFFFE ≤ c && c ≤ 0xEFFFF) ||
  (0xFFFFE ≤ c && c ≤ 0xFFFFF) ||
  (0x10FFFE ≤ c && c ≤ 0x10FFFF)

/-- C.5 Surrogate codes.  In `tables.rs` the surrogate match arm is
commented out ("forbidden by rust"), leaving only the wildcard `false`. -/
def surrogate_code (_c : Nat) : Bool :=
  false

/-- C.6 Inappropriate for plain text. -/
def inappropriate_for_plain_text (c : Nat) : Bool :=
  c == 0xFFF9 || c == 0xFFFA || c == 0xFFFB || c == 0xFFFC || c == 0xFFFD

/-- C.7 Inappropriate for canonical representation. -/
def inappropriate_for_canonical_representation (c : Nat) : Bool :=
  0x2FF0 ≤ c && c ≤ 0x2FFB

/-- C.8 Change display properties or are deprecated. -/
def change_display_properties_or_deprecated (c : Nat) : Bool :=
  c == 0x0340 || c == 0x0341 || c == 0x200E || c == 0x200F || c == 0x202A || c == 0x202B ||
  c == 0x202C || c == 0x202D || c == 0x202E || c == 0x206A || c == 0x206B || c == 0x206C ||
  c == 0x206D || c == 0x206E || c == 0x206F

/-- C.9 Tagging characters. -/
def tagging_character (c : Nat) : Bool :=
  c == 0xE0001 || (0xE0020 ≤ c && c ≤ 0xE007F)

/-- D.1 Characters with bidirectional property "R" or "AL". -/
def bidi_r_or_al (bc : Nat → BidiClass) (c : Nat) : Bool :=
  match bc c with
  | .R => true
  | .AL => true
  | _ => false

/-- D.2 Characters with bidirectional property "L". -/
def bidi_l (bc : Nat → BidiClass) (c : Nat) : Bool :=
  match bc c with
  | .L => true
  | _ => false

/-- Rust's `char::is_ascii`. -/
def is_ascii (c : Nat) : Bool :=
  c < 0x80

/-- The 2.1 mapping stage of `saslprep` exactly as coded in `lib.rs`:
first substitute `' '` for non-ASCII space characters, then filter out
"commonly mapped to nothing" characters. -/
def saslMapped (s : List Nat) : List Nat :=
  (s.map (fun c => if non_ascii_space_character c then 0x20 else c)).filter
    (fun c => !commonly_mapped_to_nothing c)

/-- The 3. mapping stage of `nameprep` as coded in `lib.rs`: filter out
"commonly mapped to nothing" characters (the subsequent `to_lowercase`
call goes through the external `Services.lower`). -/
def nameMapped (s : List Nat) : List Nat :=
  s.filter (fun c => !commonly_mapped_to_nothing c)

/-- The prohibition predicate of `saslprep`'s 2.3 stage (the disjunction
inside its `filter`, tables C.1.2 through C.9). -/
def saslPred (c : Nat) : Bool :=
  non_ascii_space_character c ||
  ascii_control_character c ||
  non_ascii_control_character c ||
  private_use c ||
  non_character_code_point c ||
  surrogate_code c ||
  inappropriate_for_plain_text c ||
  inappropriate_for_canonical_representation c ||
  change_display_properties_or_deprecated c ||
  tagging_character c

/-- The prohibition predicate of `nameprep`'s 5. stage: the same
disjunction without `ascii_control_character`. -/
def namePred (c : Nat) : Bool :=
  non_ascii_space_character c ||
  non_ascii_control_character c ||
  private_use c ||
  non_character_code_point c ||
  surrogate_code c ||
  inappropriate_for_plain_text c ||
  inappropriate_for_canonical_representation c ||
  change_display_properties_or_deprecated c ||
  tagging_character c

/-- The prohibited-output scan followed by the RFC 3454 section 6
bidirectional check, shared verbatim by both profiles in `lib.rs`
(parameterized only by the prohibition predicate).  `none` models the
panic of the `unwrap` calls on an empty normalized string. -/
def prohibitedAndBidi (sv : Services) (pred : Nat → Bool) (normalized : List Nat) :
    Option (Except ErrorCause (List Nat)) :=
  match normalized.find? pred with
  | some c => some (.error (.ProhibitedCharacter c))
  | none =>
    if normalized.any (bidi_r_or_al sv.bidiClass) then
      if normalized.any (bidi_l sv.bidiClass) then
        some (.error .ProhibitedBidirectionalText)
      else
        normalized.head?.bind (fun first =>
          normalized.getLast?.bind (fun last =>
            if !bidi_r_or_al sv.bidiClass first || !bidi_r_or_al sv.bidiClass last then
              some (.error .ProhibitedBidirectionalText)
            else
              some (.ok normalized)))
    else
      some (.ok normalized)

/-- The normalized string `saslprep` computes in its non-fast-path
branch: NFKC of the mapped input. -/
def saslNormalized (sv : Services) (s : List Nat) : List Nat :=
  sv.nfkc (saslMapped s)

/-- The normalized string `nameprep` computes: NFKC of the lowercased
mapped input. -/
def nameNormalized (sv : Services) (s : List Nat) : List Nat :=
  sv.nfkc (sv.lower (nameMapped s))

/-- `saslprep` from `lib.rs`: the ASCII fast path, then mapping,
normalization, prohibition scan and bidirectional check. -/
def saslprep (sv : Services) (s : List Nat) : Option (Except ErrorCause (List Nat)) :=
  if s.all (fun c => is_ascii c && !ascii_control_character c) then
    some (.ok s)
  else
    prohibitedAndBidi sv saslPred (saslNormalized sv s)

/-- The non-fast-path stages of `saslprep` (mapping, normalization,
prohibition scan, bidirectional check), run unconditionally. -/
def saslprepFull (sv : Services) (s : List Nat) : Option (Except ErrorCause (List Nat)) :=
  prohibitedAndBidi sv saslPred (saslNormalized sv s)

/-- `nameprep` from `lib.rs`: mapping (filter, then `to_lowercase`),
normalization, prohibition scan and bidirectional check.  There is no
fast path. -/
def nameprep (sv : Services) (s : List Nat) : Option (Except ErrorCause (List Nat)) :=
  prohibitedAndBidi sv namePred (nameNormalized sv s)

/-- The mapping stage of profile A as worded by the specification and
claim C1: each code point is first dropped if "commonly mapped to
nothing", and only otherwise substituted by a space if it is a non-ASCII
space character.  Kept separate from `saslMapped` so the two orders can
be compared. -/
def claimedSaslMapping (s : List Nat) : List Nat :=
  s.filterMap (fun c =>
    if commonly_mapped_to_nothing c then none
    else if non_ascii_space_character c then some 0x20
    else some c)

/-- The mapping stage of profile B as worded by the specification and
claim C2: delete "commonly mapped to nothing" code points, then replace
each remaining code point by its `case_fold_for_nfkc` sequence,
concatenated in input order. -/
def claimedNameMapping (B_2 : List (Nat × List Nat)) (s : List Nat) : List Nat :=
  (s.filter (fun c => !commonly_mapped_to_nothing c)).flatMap (case_fold_for_nfkc B_2)

/-- The mapping order that `saslMapped` actually implements, phrased per
code point: substitute the space first, then test the (possibly
substituted) code point against "commonly mapped to nothing". -/
def amendedSaslMapping (s : List Nat) : List Nat :=
  s.filterMap (fun c =>
    if commonly_mapped_to_nothing (if non_ascii_space_character c then 0x20 else c) then none
    else some (if non_ascii_space_character c then 0x20 else c))

/-- Modelled from the spec: a fragment of the generated `rfc3454::B_2`
case-fold table, which is emitted at build time and absent from the
sources.  Entries follow the specification's generator contract (sorted,
disjoint single-code-point keys with 0-4 replacement code points) and
mirror the RFC 3454 B.2 rows for U+0041, U+00DF and U+2102. -/
def sampleB2 : List (Nat × List Nat) :=
  [(0x41, [0x61]), (0xDF, [0x73, 0x73]), (0x2102, [0x63])]

/-- Modelled from the spec: a fragment of the generated `rfc3454::A_1`
unassigned-code-point table (sorted, disjoint, ascending ranges),
mirroring the first RFC 3454 A.1 rows 0221 and 0234-024F. -/
def sampleA1 : List (Nat × Nat) :=
  [(0x221, 0x221), (0x234, 0x24F)]

/-- A service instantiation for concrete runs whose code points are
untouched by NFKC and lowercasing: both act as the identity, and every
code point is reported in bidirectional class "other". -/
def svPlain : Services :=
  ⟨id, fun _ => .Other, id⟩

/-- A service instantiation mirroring real Unicode data at the code
points of the concrete runs that use it: NFKC is the identity,
`to_lowercase` maps A-Z to a-z and leaves other code points, and the
bidirectional class is L (the class of ASCII letters). -/
def svAsciiLower : Services :=
  ⟨id, fun _ => .L,
    List.map (fun c => if 0x41 ≤ c && c ≤ 0x5A then c + 0x20 else c)⟩

/-- A service instantiation mirroring real Unicode data at U+2102, "C"
and "c": NFKC maps U+2102 (double-struck capital C, compatibility
decomposition "C") to U+0043 and is the identity elsewhere;
`to_lowercase` maps "C" to "c" and leaves U+2102 (which has no lowercase
mapping); every involved code point has bidirectional class L. -/
def svDoubleStruckC : Services :=
  ⟨fun l => l.flatMap (fun c => if c == 0x2102 then [0x43] else [c]),
   fun _ => .L,
   List.map (fun c => if c == 0x43 then 0x63 else c)⟩

/-- A service instantiation mirroring real Unicode data at U+00DF: NFKC
and `to_lowercase` are both the identity on U+00DF (sharp s has no
lowercase mapping and is NFKC-stable), and its bidirectional class is L. -/
def svSharpS : Services :=
  ⟨id, fun _ => .L, id⟩

/-- A service instantiation mirroring real Unicode data at U+05D0 (Hebrew
alef, bidirectional class R) and ASCII letters (class L); NFKC and
lowercasing are the identity on the code points of the runs using it. -/
def svHeb : Services :=
  ⟨id, fun c => if c == 0x5D0 then .R else .L, id⟩

/-- The failure condition of the bidirectional stage as worded by the
specification and claim C5: the string contains an R/AL code point and
either also contains an L code point, or its first or last code point is
not R/AL. -/
def bidiViolation (sv : Services) (n : List Nat) : Prop :=
  n.any (bidi_r_or_al sv.bidiClass) = true ∧
    (n.any (bidi_l sv.bidiClass) = true ∨
     (∃ h, n.head? = some h ∧ bidi_r_or_al sv.bidiClass h = false) ∨
     (∃ t, n.getLast? = some t ∧ bidi_r_or_al sv.bidiClass t = false))

theorem binarySearchLoop_ok (g : Nat → Ordering) :
    ∀ fuel left right idx, binarySearchLoop g fuel left right = .ok idx →
      left ≤ idx ∧ idx < right ∧ g idx = .eq := by
  intro fuel
  induction fuel with
  | zero =>
    intro l r idx h
    simp [binarySearchLoop] at h
  | succ n ih =>
    intro l r idx h
    simp only [binarySearchLoop] at h
    split at h
    · split at h
      · have h' := ih _ _ _ h
        exact ⟨by omega, h'.2.1, h'.2.2⟩
      · have h' := ih _ _ _ h
        exact ⟨h'.1, by omega, h'.2.2⟩
      · rename_i heq
        cases h
        exact ⟨by omega, by omega, heq⟩
    · cases h

theorem binarySearchLoop_err (g : Nat → Ordering) :
    ∀ fuel left right e, right - left ≤ fuel →
      (∀ i j, left ≤ i → i ≤ j → j < right → g j = .lt → g i = .lt) →
      (∀ i j, left ≤ i → i ≤ j → j < right → g i = .gt → g j = .gt) →
      binarySearchLoop g fuel left right = .error e →
      ∀ i, left ≤ i → i < right → g i ≠ .eq := by
  intro fuel
  induction fuel with
  | zero =>
    intro l r e hf _ _ _ i hli hir
    omega
  | succ n ih =>
    intro l r e hf hlt hgt h i hli hir
    simp only [binarySearchLoop] at h
    split at h
    · rename_i hlr
      split at h
      · rename_i heq
        by_cases hcase : i ≤ l + (r - l) / 2
        · intro habs
          have := hlt i (l + (r - l) / 2) hli hcase (by omega) heq
          rw [habs] at this
          cases this
        · exact ih _ _ _ (by omega)
            (fun a b h1 h2 h3 => hlt a b (by omega) h2 h3)
            (fun a b h1 h2 h3 => hgt a b (by omega) h2 h3)
            h i (by omega) hir
      · rename_i heq
        by_cases hcase : l + (r - l) / 2 ≤ i
        · intro habs
          have := hgt (l + (r - l) / 2) i (by omega) hcase hir heq
          rw [habs] at this
          cases this
        · exact ih _ _ _ (by omega)
            (fun a b h1 h2 h3 => hlt a b h1 h2 (by omega))
            (fun a b h1 h2 h3 => hgt a b h1 h2 (by omega))
            h i hli (by omega)
      · cases h
    · omega

theorem binarySearchBy_ok [Inhabited α] (f : α → Ordering) (xs : List α) (idx : Nat)
    (h : binarySearchBy f xs = .ok idx) :
    idx < xs.length ∧ f (xs.getD idx default) = .eq := by
  have h' := binarySearchLoop_ok (fun i => f (xs.getD i default)) _ _ _ _ h
  exact ⟨h'.2.1, h'.2.2⟩

theorem binarySearchBy_err [Inhabited α] (f : α → Ordering) (xs : List α) (e : Nat)
    (hlt : ∀ i j, i ≤ j → j < xs.length →
      f (xs.getD j default) = .lt → f (xs.getD i default) = .lt)
    (hgt : ∀ i j, i ≤ j → j < xs.length →
      f (xs.getD i default) = .gt → f (xs.getD j default) = .gt)
    (h : binarySearchBy f xs = .error e) :
    ∀ i, i < xs.length → f (xs.getD i default) ≠ .eq :=
  fun i hi => binarySearchLoop_err (fun i => f (xs.getD i default)) xs.length 0 xs.length e
    (by omega)
    (fun a b _ h2 h3 => hlt a b h2 h3)
    (fun a b _ h2 h3 => hgt a b h2 h3)
    h i (Nat.zero_le i) hi


theorem natCmp_eq_lt_iff (a b : Nat) : natCmp a b = .lt ↔ a < b := by
  unfold natCmp
  by_cases h1 : a < b
  · rw [if_pos h1]
    exact ⟨fun _ => h1, fun _ => rfl⟩
  · rw [if_neg h1]
    by_cases h2 : b < a
    · rw [if_pos h2]
      exact ⟨(fun h => nomatch h), fun h => absurd h h1⟩
    · rw [if_neg h2]
      exact ⟨(fun h => nomatch h), fun h => absurd h h1⟩

theorem natCmp_eq_gt_iff (a b : Nat) : natCmp a b = .gt ↔ b < a := by
  unfold natCmp
  by_cases h1 : a < b
  · rw [if_pos h1]
    exact ⟨(fun h => nomatch h), fun h => by omega⟩
  · rw [if_neg h1]
    by_cases h2 : b < a
    · rw [if_pos h2]
      exact ⟨fun _ => h2, fun _ => rfl⟩
    · rw [if_neg h2]
      exact ⟨(fun h => nomatch h), fun h => absurd h h2⟩

theorem natCmp_eq_eq_iff (a b : Nat) : natCmp a b = .eq ↔ a = b := by
  unfold natCmp
  by_cases h1 : a < b
  · rw [if_pos h1]
    exact ⟨(fun h => nomatch h), fun h => by omega⟩
  · rw [if_neg h1]
    by_cases h2 : b < a
    · rw [if_pos h2]
      exact ⟨(fun h => nomatch h), fun h => by omega⟩
    · rw [if_neg h2]
      exact ⟨fun _ => by omega, fun _ => rfl⟩

theorem rangeCmp_eq_lt_iff (p : Nat × Nat) (c : Nat) :
    ((if p.1 > c then Ordering.gt else if p.2 < c then Ordering.lt else Ordering.eq) = .lt)
      ↔ (p.1 ≤ c ∧ p.2 < c) := by
  by_cases h1 : p.1 > c
  · rw [if_pos h1]
    exact ⟨(fun h => nomatch h), fun h => by omega⟩
  · rw [if_neg h1]
    by_cases h2 : p.2 < c
    · rw [if_pos h2]
      exact ⟨fun _ => ⟨by omega, h2⟩, fun _ => rfl⟩
    · rw [if_neg h2]
      exact ⟨(fun h => nomatch h), fun h => absurd h.2 h2⟩

theorem rangeCmp_eq_gt_iff (p : Nat × Nat) (c : Nat) :
    ((if p.1 > c then Ordering.gt else if p.2 < c then Ordering.lt else Ordering.eq) = .gt)
      ↔ c < p.1 := by
  by_cases h1 : p.1 > c
  · rw [if_pos h1]
    exact ⟨fun _ => h1, fun _ => rfl⟩
  · rw [if_neg h1]
    by_cases h2 : p.2 < c
    · rw [if_pos h2]
      exact ⟨(fun h => nomatch h), fun h => absurd h h1⟩
    · rw [if_neg h2]
      exact ⟨(fun h => nomatch h), fun h => absurd h h1⟩

theorem rangeCmp_eq_eq_iff (p : Nat × Nat) (c : Nat) :
    ((if p.1 > c then Ordering.gt else if p.2 < c then Ordering.lt else Ordering.eq) = .eq)
      ↔ (p.1 ≤ c ∧ c ≤ p.2) := by
  by_cases h1 : p.1 > c
  · rw [if_pos h1]
    exact ⟨(fun h => nomatch h), fun h => by omega⟩
  · rw [if_neg h1]
    by_cases h2 : p.2 < c
    · rw [if_pos h2]
      exact ⟨(fun h => nomatch h), fun h => by omega⟩
    · rw [if_neg h2]
      exact ⟨fun _ => by omega, fun _ => rfl⟩

/-- C8: assuming the A.1 range table is strictly ascending and pairwise
non-overlapping (each range ends before the next starts) and each range
is well-formed, the binary-search membership test of
`unassigned_code_point` answers exactly like a linear scan testing
`start ≤ c ≤ end` over all entries. -/
theorem claim_C8_binary_search_eq_linear_scan (A_1 : List (Nat × Nat))
    (hwf : ∀ p ∈ A_1, p.1 ≤ p.2)
    (hsorted : A_1.Pairwise (fun a b => a.2 < b.1)) (c : Nat) :
    unassigned_code_point A_1 c = A_1.any (fun p => p.1 ≤ c && c ≤ p.2) := by
  have hpair := List.pairwise_iff_getElem.mp hsorted
  unfold unassigned_code_point
  cases hres : binarySearchBy
      (fun e => if e.1 > c then .gt else if e.2 < c then .lt else .eq) A_1 with
  | ok idx =>
    have h1 := binarySearchBy_ok _ _ _ hres
    have hmem : A_1.getD idx default ∈ A_1 := by
      rw [List.getD_eq_getElem _ _ h1.1]
      exact List.getElem_mem h1.1
    have heq := (rangeCmp_eq_eq_iff _ c).mp h1.2
    show true = A_1.any (fun p => p.1 ≤ c && c ≤ p.2)
    symm
    rw [List.any_eq_true]
    exact ⟨A_1.getD idx default, hmem, by rw [Bool.and_eq_true, decide_eq_true_eq, decide_eq_true_eq]; exact heq⟩
  | error e =>
    have hlt : ∀ i j, i ≤ j → j < A_1.length →
        (fun e => if e.1 > c then Ordering.gt else if e.2 < c then Ordering.lt else Ordering.eq)
          (A_1.getD j default) = .lt →
        (fun e => if e.1 > c then Ordering.gt else if e.2 < c then Ordering.lt else Ordering.eq)
          (A_1.getD i default) = .lt := by
      intro i j hij hj hfj
      simp only at hfj ⊢
      rcases Nat.eq_or_lt_of_le hij with rfl | hlt'
      · exact hfj
      · rw [List.getD_eq_getElem _ _ hj] at hfj
        rw [List.getD_eq_getElem _ _ (by omega)]
        have hij2 := hpair i j (by omega) hj hlt'
        have hwi := hwf _ (List.getElem_mem (show i < A_1.length by omega))
        have hj' := (rangeCmp_eq_lt_iff _ c).mp hfj
        exact (rangeCmp_eq_lt_iff _ c).mpr ⟨by omega, by omega⟩
    have hgt : ∀ i j, i ≤ j → j < A_1.length →
        (fun e => if e.1 > c then Ordering.gt else if e.2 < c then Ordering.lt else Ordering.eq)
          (A_1.getD i default) = .gt →
        (fun e => if e.1 > c then Ordering.gt else if e.2 < c then Ordering.lt else Ordering.eq)
          (A_1.getD j default) = .gt := by
      intro i j hij hj hfi
      simp only at hfi ⊢
      rcases Nat.eq_or_lt_of_le hij with rfl | hlt'
      · exact hfi
      · rw [List.getD_eq_getElem _ _ (show i < A_1.length by omega)] at hfi
        rw [List.getD_eq_getElem _ _ hj]
        have hij2 := hpair i j (by omega) hj hlt'
        have hwi := hwf _ (List.getElem_mem (show i < A_1.length by omega))
        have hi' := (rangeCmp_eq_gt_iff _ c).mp hfi
        exact (rangeCmp_eq_gt_iff _ c).mpr (by omega)
    have herr := binarySearchBy_err _ _ _ hlt hgt hres
    show false = A_1.any (fun p => p.1 ≤ c && c ≤ p.2)
    symm
    rw [List.any_eq_false]
    intro p hp
    obtain ⟨i, hi, hgi⟩ := List.mem_iff_getElem.mp hp
    have hne := herr i hi
    rw [List.getD_eq_getElem _ _ hi, hgi] at hne
    intro hcon
    rw [Bool.and_eq_true, decide_eq_true_eq, decide_eq_true_eq] at hcon
    exact hne ((rangeCmp_eq_eq_iff p c).mpr hcon)

/-- Witness for C8 at a concrete sorted table and code point. -/
theorem claim_C8_witness :
    unassigned_code_point sampleA1 0x240 =
      sampleA1.any (fun p => p.1 ≤ 0x240 && 0x240 ≤ p.2) ∧
    unassigned_code_point sampleA1 0x240 = true :=
  ⟨claim_C8_binary_search_eq_linear_scan sampleA1 (by decide) (by decide) 0x240, by decide⟩

/-- C7: with the B.2 table sorted strictly by key, `case_fold_for_nfkc`
returns the stored replacement sequence exactly when the code point is a
key of the table, and the single unchanged code point otherwise. -/
theorem claim_C7_case_fold_lookup (B_2 : List (Nat × List Nat))
    (hsorted : B_2.Pairwise (fun a b => a.1 < b.1)) :
    (∀ c r, (c, r) ∈ B_2 → case_fold_for_nfkc B_2 c = r) ∧
    (∀ c, (∀ p ∈ B_2, p.1 ≠ c) → case_fold_for_nfkc B_2 c = [c]) := by
  have hpair := List.pairwise_iff_getElem.mp hsorted
  constructor
  · intro c r hmem
    obtain ⟨j, hj, hgj⟩ := List.mem_iff_getElem.mp hmem
    have hlt : ∀ i j', i ≤ j' → j' < B_2.length →
        (fun e => natCmp e.1 c) (B_2.getD j' default) = .lt →
        (fun e => natCmp e.1 c) (B_2.getD i default) = .lt := by
      intro i j' hij hj' hfj
      simp only at hfj ⊢
      rcases Nat.eq_or_lt_of_le hij with rfl | hlt'
      · exact hfj
      · rw [List.getD_eq_getElem _ _ hj'] at hfj
        rw [List.getD_eq_getElem _ _ (by omega)]
        have hij2 := hpair i j' (by omega) hj' hlt'
        have hj2 := (natCmp_eq_lt_iff _ c).mp hfj
        exact (natCmp_eq_lt_iff _ c).mpr (by omega)
    have hgt : ∀ i j', i ≤ j' → j' < B_2.length →
        (fun e => natCmp e.1 c) (B_2.getD i default) = .gt →
        (fun e => natCmp e.1 c) (B_2.getD j' default) = .gt := by
      intro i j' hij hj' hfi
      simp only at hfi ⊢
      rcases Nat.eq_or_lt_of_le hij with rfl | hlt'
      · exact hfi
      · rw [List.getD_eq_getElem _ _ (show i < B_2.length by omega)] at hfi
        rw [List.getD_eq_getElem _ _ hj']
        have hij2 := hpair i j' (by omega) hj' hlt'
        have hi2 := (natCmp_eq_gt_iff _ c).mp hfi
        exact (natCmp_eq_gt_iff _ c).mpr (by omega)
    cases hres : binarySearchBy (fun e => natCmp e.1 c) B_2 with
    | error e =>
      exfalso
      have herr := binarySearchBy_err _ _ _ hlt hgt hres j hj
      rw [List.getD_eq_getElem _ _ hj, hgj] at herr
      exact herr ((natCmp_eq_eq_iff c c).mpr rfl)
    | ok idx =>
      have h1 := binarySearchBy_ok _ _ _ hres
      have hkey : (B_2.getD idx default).1 = c := (natCmp_eq_eq_iff _ _).mp h1.2
      have hidx : idx = j := by
        rw [List.getD_eq_getElem _ _ h1.1] at hkey
        by_contra hne
        rcases Nat.lt_or_ge idx j with hij | hij
        · have := hpair idx j h1.1 hj hij
          rw [hgj] at this
          omega
        · have hij' : j < idx := by omega
          have := hpair j idx hj h1.1 hij'
          rw [hgj] at this
          omega
      unfold case_fold_for_nfkc
      rw [hres]
      show (B_2.getD idx default).2 = r
      subst hidx
      rw [List.getD_eq_getElem _ _ h1.1, hgj]
  · intro c hmiss
    cases hres : binarySearchBy (fun e => natCmp e.1 c) B_2 with
    | error e =>
      unfold case_fold_for_nfkc
      rw [hres]
    | ok idx =>
      exfalso
      have h1 := binarySearchBy_ok _ _ _ hres
      have hkey : (B_2.getD idx default).1 = c := (natCmp_eq_eq_iff _ _).mp h1.2
      have hmem : B_2.getD idx default ∈ B_2 := by
        rw [List.getD_eq_getElem _ _ h1.1]
        exact List.getElem_mem h1.1
      exact hmiss _ hmem hkey

/-- Witness for C7 at a concrete sorted table: a hit on U+00DF with its
two-code-point replacement, and a miss returning the input unchanged. -/
theorem claim_C7_witness :
    case_fold_for_nfkc sampleB2 0xDF = [0x73, 0x73] ∧
    case_fold_for_nfkc sampleB2 0x42 = [0x42] :=
  ⟨(claim_C7_case_fold_lookup sampleB2 (by decide)).1 0xDF [0x73, 0x73] (by decide),
   (claim_C7_case_fold_lookup sampleB2 (by decide)).2 0x42 (by decide)⟩

theorem non_ascii_space_of_ascii (c : Nat) (hc : c < 0x80) :
    non_ascii_space_character c = false := by
  rw [Bool.eq_false_iff]
  intro h
  simp only [non_ascii_space_character, Bool.or_eq_true, beq_iff_eq] at h
  omega

theorem commonly_mapped_of_ascii (c : Nat) (hc : c < 0x80) :
    commonly_mapped_to_nothing c = false := by
  rw [Bool.eq_false_iff]
  intro h
  simp only [commonly_mapped_to_nothing, Bool.or_eq_true, beq_iff_eq] at h
  omega

theorem saslPred_of_ascii (c : Nat) (hc : c < 0x80)
    (hctl : ascii_control_character c = false) : saslPred c = false := by
  rw [Bool.eq_false_iff]
  intro h
  simp only [ascii_control_character, Bool.or_eq_false_iff, decide_eq_false_iff_not,
    beq_eq_false_iff_ne, ne_eq] at hctl
  simp only [saslPred, non_ascii_space_character, ascii_control_character,
    non_ascii_control_character, private_use, non_character_code_point, surrogate_code,
    inappropriate_for_plain_text, inappropriate_for_canonical_representation,
    change_display_properties_or_deprecated, tagging_character, Bool.or_eq_true,
    Bool.and_eq_true, beq_iff_eq, decide_eq_true_eq, Bool.false_eq_true, or_false, false_or] at h
  omega

theorem namePred_eq_saslPred_sans_control (c : Nat) :
    namePred c = (saslPred c && !ascii_control_character c) := by
  by_cases hctl : ascii_control_character c = true
  · have h1 : namePred c = false := by
      rw [Bool.eq_false_iff]
      intro h
      simp only [ascii_control_character, Bool.or_eq_true, decide_eq_true_eq,
        beq_iff_eq] at hctl
      simp only [namePred, non_ascii_space_character, non_ascii_control_character,
        private_use, non_character_code_point, surrogate_code, inappropriate_for_plain_text,
        inappropriate_for_canonical_representation, change_display_properties_or_deprecated,
        tagging_character, Bool.or_eq_true, Bool.and_eq_true, beq_iff_eq,
        decide_eq_true_eq, Bool.false_eq_true, or_false, false_or] at h
      omega
    rw [h1, hctl, Bool.not_true, Bool.and_false]
  · have hctl' : ascii_control_character c = false := by
      revert hctl
      cases ascii_control_character c <;> simp
    rw [hctl', Bool.not_false, Bool.and_true]
    unfold namePred saslPred
    rw [hctl']
    cases non_ascii_space_character c <;> simp

theorem saslMapped_of_ascii (s : List Nat) (hs : ∀ c ∈ s, c < 0x80) :
    saslMapped s = s := by
  induction s with
  | nil => rfl
  | cons a t ih =>
    have ha := hs a (List.mem_cons_self a t)
    have ht := ih (fun c hc => hs c (List.mem_cons_of_mem a hc))
    simp only [saslMapped] at ht ⊢
    simp [List.map_cons, List.filter_cons, non_ascii_space_of_ascii a ha,
      commonly_mapped_of_ascii a ha, ht]

theorem nameMapped_of_ascii (s : List Nat) (hs : ∀ c ∈ s, c < 0x80) :
    nameMapped s = s := by
  unfold nameMapped
  rw [List.filter_eq_self]
  intro a ha
  rw [commonly_mapped_of_ascii a (hs a ha)]
  rfl

theorem find?_eq_some_split (p : Nat → Bool) (l : List Nat) (d : Nat)
    (h : l.find? p = some d) :
    p d = true ∧ ∃ pre post, l = pre ++ d :: post ∧ ∀ x ∈ pre, p x = false := by
  induction l with
  | nil => cases h
  | cons a t ih =>
    by_cases ha : p a = true
    · rw [List.find?_cons_of_pos t ha] at h
      cases h
      exact ⟨ha, [], t, rfl, by intro x hx; cases hx⟩
    · have ha' : p a = false := by
        revert ha
        cases p a <;> simp
      rw [List.find?_cons_of_neg t (by rw [ha']; intro h; cases h)] at h
      obtain ⟨hd, pre, post, heq, hpre⟩ := ih h
      refine ⟨hd, a :: pre, post, by rw [heq]; rfl, ?_⟩
      intro x hx
      rcases List.mem_cons.mp hx with rfl | hx
      · exact ha'
      · exact hpre x hx

theorem prohibitedAndBidi_of_find (sv : Services) (pred : Nat → Bool) (n : List Nat) (d : Nat)
    (h : n.find? pred = some d) :
    prohibitedAndBidi sv pred n = some (.error (.ProhibitedCharacter d)) := by
  unfold prohibitedAndBidi
  rw [h]

theorem prohibitedAndBidi_of_none (sv : Services) (pred : Nat → Bool) (n : List Nat)
    (hf : n.find? pred = none) :
    (prohibitedAndBidi sv pred n = some (.error .ProhibitedBidirectionalText) ↔
      bidiViolation sv n) ∧
    (prohibitedAndBidi sv pred n = some (.error .ProhibitedBidirectionalText) ∨
      prohibitedAndBidi sv pred n = some (.ok n)) := by
  unfold prohibitedAndBidi bidiViolation
  rw [hf]
  by_cases hr : n.any (bidi_r_or_al sv.bidiClass) = true
  · rw [if_pos hr]
    have hne : n ≠ [] := by
      intro he
      rw [he] at hr
      cases hr
    obtain ⟨a, t, rfl⟩ := List.exists_cons_of_ne_nil hne
    obtain ⟨b, hb⟩ : ∃ b, (a :: t).getLast? = some b := by
      cases hg : (a :: t).getLast? with
      | none => exact absurd (List.getLast?_eq_none_iff.mp hg) hne
      | some b => exact ⟨b, rfl⟩
    by_cases hl : (a :: t).any (bidi_l sv.bidiClass) = true
    · rw [if_pos hl]
      exact ⟨⟨fun _ => ⟨hr, Or.inl hl⟩, fun _ => rfl⟩, Or.inl rfl⟩
    · rw [if_neg hl]
      rw [List.head?_cons, hb]
      simp only [Option.some_bind]
      by_cases hab : (!bidi_r_or_al sv.bidiClass a || !bidi_r_or_al sv.bidiClass b) = true
      · rw [if_pos hab]
        refine ⟨⟨fun _ => ⟨hr, ?_⟩, fun _ => rfl⟩, Or.inl rfl⟩
        rcases Bool.or_eq_true_iff.mp hab with hx | hx
        · exact Or.inr (Or.inl ⟨a, rfl, by revert hx; cases bidi_r_or_al sv.bidiClass a <;> simp⟩)
        · exact Or.inr (Or.inr ⟨b, rfl, by revert hx; cases bidi_r_or_al sv.bidiClass b <;> simp⟩)
      · rw [if_neg hab]
        have ha2 : bidi_r_or_al sv.bidiClass a = true := by
          revert hab
          cases bidi_r_or_al sv.bidiClass a <;> simp
        have hb2 : bidi_r_or_al sv.bidiClass b = true := by
          revert hab
          cases bidi_r_or_al sv.bidiClass b <;> simp
        refine ⟨⟨fun hcon => ?_, fun hcon => ?_⟩, Or.inr rfl⟩
        · cases hcon
        · exfalso
          rcases hcon.2 with hx | ⟨h', hh', hx⟩ | ⟨t', ht', hx⟩
          · exact hl hx
          · cases hh'
            rw [ha2] at hx
            cases hx
          · cases ht'
            rw [hb2] at hx
            cases hx
  · rw [if_neg hr]
    refine ⟨⟨(fun hcon => by cases hcon), fun hcon => absurd hcon.1 hr⟩, Or.inr rfl⟩

theorem prohibitedAndBidi_char_inv (sv : Services) (pred : Nat → Bool) (n : List Nat) (d : Nat)
    (h : prohibitedAndBidi sv pred n = some (.error (.ProhibitedCharacter d))) :
    n.find? pred = some d := by
  cases hf : n.find? pred with
  | some c =>
    have h2 := prohibitedAndBidi_of_find sv pred n c hf
    rw [h2] at h
    simp only [Option.some.injEq, Except.error.injEq,
      ErrorCause.ProhibitedCharacter.injEq] at h
    rw [h]
  | none =>
    exfalso
    rcases (prohibitedAndBidi_of_none sv pred n hf).2 with h2 | h2 <;>
      rw [h2] at h <;> simp at h

theorem prohibitedAndBidi_isSome (sv : Services) (pred : Nat → Bool) (n : List Nat) :
    (prohibitedAndBidi sv pred n).isSome = true := by
  cases hf : n.find? pred with
  | some c =>
    rw [prohibitedAndBidi_of_find sv pred n c hf]
    rfl
  | none =>
    rcases (prohibitedAndBidi_of_none sv pred n hf).2 with h2 | h2 <;> rw [h2] <;> rfl

theorem fastPathAll (s : List Nat)
    (hfp : s.all (fun c => is_ascii c && !ascii_control_character c) = true) :
    ∀ x ∈ s, x < 0x80 ∧ ascii_control_character x = false := by
  intro x hx
  have h := List.all_eq_true.mp hfp x hx
  rw [Bool.and_eq_true] at h
  constructor
  · have h1 := h.1
    simpa [is_ascii] using h1
  · have h2 := h.2
    revert h2
    cases ascii_control_character x <;> simp

theorem saslNormalized_fast_path (sv : Services) (s : List Nat)
    (hnfkc : ∀ l, (∀ c ∈ l, c < 0x80) → sv.nfkc l = l)
    (hfp : s.all (fun c => is_ascii c && !ascii_control_character c) = true) :
    saslNormalized sv s = s := by
  unfold saslNormalized
  rw [saslMapped_of_ascii s (fun x hx => (fastPathAll s hfp x hx).1)]
  exact hnfkc s (fun x hx => (fastPathAll s hfp x hx).1)

theorem saslPred_of_surrogate (d : Nat) (hd : 0xD800 ≤ d ∧ d ≤ 0xDFFF) :
    saslPred d = false := by
  rw [Bool.eq_false_iff]
  intro h
  simp only [saslPred, non_ascii_space_character, ascii_control_character,
    non_ascii_control_character, private_use, non_character_code_point, surrogate_code,
    inappropriate_for_plain_text, inappropriate_for_canonical_representation,
    change_display_properties_or_deprecated, tagging_character, Bool.or_eq_true,
    Bool.and_eq_true, beq_iff_eq, decide_eq_true_eq, Bool.false_eq_true, or_false,
    false_or] at h
  omega

theorem namePred_of_surrogate (d : Nat) (hd : 0xD800 ≤ d ∧ d ≤ 0xDFFF) :
    namePred d = false := by
  rw [namePred_eq_saslPred_sans_control, saslPred_of_surrogate d hd]
  rfl

/-- C1: the claim puts the "commonly mapped to nothing" test first in
`saslprep`'s mapping, so U+200B would be deleted; the code substitutes
the space first, so U+200B (a non-ASCII space) comes out as a space, and
the whole pipeline maps `"​"` to `" "`, not to `""`. -/
theorem claim_C1_counterexample :
    saslMapped [0x200B] = [0x20] ∧ claimedSaslMapping [0x200B] = [] ∧
    saslprep svPlain [0x200B] = some (.ok [0x20]) :=
  ⟨by decide, by decide, by decide⟩

/-- C1 amended: `saslprep`'s mapping stage substitutes the space for
non-ASCII space characters first and only then drops code points that
are "commonly mapped to nothing" (testing the substituted code point);
in particular U+200B is replaced by a space, not deleted. -/
theorem claim_C1_amended_mapping_order :
    (∀ s, saslMapped s = amendedSaslMapping s) ∧ saslMapped [0x200B] = [0x20] := by
  constructor
  · intro s
    induction s with
    | nil => rfl
    | cons a t ih =>
      simp only [saslMapped, amendedSaslMapping, List.map_cons, List.filter_cons,
        List.filterMap_cons] at ih ⊢
      by_cases hc :
          commonly_mapped_to_nothing (if non_ascii_space_character a then 0x20 else a) = true
      · simp [hc, ih]
      · simp [hc, ih]
  · decide

/-- C2: `nameprep`'s mapping stage calls `str::to_lowercase` (the FIXME
proxy at `lib.rs:119`), not `case_fold_for_nfkc`.  With the service
instantiation mirroring real Unicode at U+00DF (lowercasing and NFKC fix
sharp s), the pipeline returns "ß" unchanged, while the mapping the
claim describes folds it to "ss". -/
theorem claim_C2_lowercase_proxy_not_case_fold :
    nameprep svSharpS [0xDF] = some (.ok [0xDF]) ∧
    claimedNameMapping sampleB2 [0xDF] = [0x73, 0x73] ∧
    ([0xDF] : List Nat) ≠ [0x73, 0x73] :=
  ⟨by decide, by decide, by decide⟩

/-- C3 counterexample: `nameprep` does not return pure-ASCII control-free
input unchanged — it has no fast path and lowercases ASCII letters, so
"A" comes back as "a" (the lowercase service here mirrors real Unicode
on A-Z). -/
theorem claim_C3_counterexample :
    nameprep svAsciiLower [0x41] = some (.ok [0x61]) ∧ ([0x61] : List Nat) ≠ [0x41] :=
  ⟨by decide, by decide⟩

/-- C3 amended: restricted to `saslprep`.  For pure-ASCII input without
ASCII control characters, under the service contracts that NFKC is the
identity on ASCII strings and that no ASCII code point has class R/AL,
the fast path returns the input unchanged and equals the result of
running the non-fast-path stages. -/
theorem claim_C3_amended_fast_path (sv : Services) (s : List Nat)
    (hnfkc : ∀ l, (∀ c ∈ l, c < 0x80) → sv.nfkc l = l)
    (hbidi : ∀ c, c < 0x80 → bidi_r_or_al sv.bidiClass c = false)
    (hs : ∀ c ∈ s, c < 0x80 ∧ ascii_control_character c = false) :
    saslprep sv s = some (.ok s) ∧ saslprepFull sv s = saslprep sv s := by
  have hfp : s.all (fun c => is_ascii c && !ascii_control_character c) = true := by
    rw [List.all_eq_true]
    intro c hc
    have h := hs c hc
    rw [Bool.and_eq_true]
    refine ⟨by simp [is_ascii, h.1], by rw [h.2]; rfl⟩
  have hnorm : saslNormalized sv s = s := saslNormalized_fast_path sv s hnfkc hfp
  have hfind : (saslNormalized sv s).find? saslPred = none := by
    rw [hnorm, List.find?_eq_none]
    intro c hc
    have h := hs c hc
    rw [saslPred_of_ascii c h.1 h.2]
    simp
  have h1 : saslprep sv s = some (.ok s) := by
    unfold saslprep
    rw [if_pos hfp]
  have h2 : saslprepFull sv s = some (.ok s) := by
    unfold saslprepFull
    rcases (prohibitedAndBidi_of_none sv saslPred (saslNormalized sv s) hfind).2 with h | h
    · exfalso
      have hv := ((prohibitedAndBidi_of_none sv saslPred (saslNormalized sv s) hfind).1).mp h
      have hfalse : (saslNormalized sv s).any (bidi_r_or_al sv.bidiClass) = false := by
        rw [hnorm, List.any_eq_false]
        intro x hx
        rw [hbidi x (hs x hx).1]
        simp
      rw [hv.1] at hfalse
      cases hfalse
    · rw [h, hnorm]
  exact ⟨h1, h2.trans h1.symm⟩

/-- Witness for the amended C3 at the ASCII input "user". -/
theorem claim_C3_witness :
    saslprep svPlain [0x75, 0x73, 0x65, 0x72] = some (.ok [0x75, 0x73, 0x65, 0x72]) ∧
    saslprepFull svPlain [0x75, 0x73, 0x65, 0x72] =
      saslprep svPlain [0x75, 0x73, 0x65, 0x72] :=
  claim_C3_amended_fast_path svPlain [0x75, 0x73, 0x65, 0x72]
    (fun _ _ => rfl) (fun _ _ => rfl) (by decide)

/-- C4: profile B's prohibition predicate is exactly profile A's minus
ASCII control characters, and whenever the normalized string contains a
prohibited code point, each pipeline returns `ProhibitedCharacter`
carrying the leftmost one (everything before it in the normalized string
fails the predicate), regardless of the bidirectional properties of the
string.  The NFKC-on-ASCII contract is needed only to rule the fast path
out of producing a prohibited code point. -/
theorem claim_C4_first_prohibited_and_sets (sv : Services) (s : List Nat)
    (hnfkc : ∀ l, (∀ c ∈ l, c < 0x80) → sv.nfkc l = l) :
    (∀ c, namePred c = (saslPred c && !ascii_control_character c)) ∧
    (∀ c, c ∈ saslNormalized sv s → saslPred c = true →
      ∃ d pre post, saslprep sv s = some (.error (.ProhibitedCharacter d)) ∧
        saslPred d = true ∧ saslNormalized sv s = pre ++ d :: post ∧
        ∀ x ∈ pre, saslPred x = false) ∧
    (∀ c, c ∈ nameNormalized sv s → namePred c = true →
      ∃ d pre post, nameprep sv s = some (.error (.ProhibitedCharacter d)) ∧
        namePred d = true ∧ nameNormalized sv s = pre ++ d :: post ∧
        ∀ x ∈ pre, namePred x = false) := by
  refine ⟨namePred_eq_saslPred_sans_control, ?_, ?_⟩
  · intro c hc hpred
    cases hfind : (saslNormalized sv s).find? saslPred with
    | none => exact absurd hpred (List.find?_eq_none.mp hfind c hc)
    | some d =>
      obtain ⟨hd, pre, post, hsplit, hpre⟩ := find?_eq_some_split _ _ _ hfind
      refine ⟨d, pre, post, ?_, hd, hsplit, hpre⟩
      unfold saslprep
      by_cases hfp : s.all (fun c => is_ascii c && !ascii_control_character c) = true
      · exfalso
        rw [saslNormalized_fast_path sv s hnfkc hfp] at hc
        have h := fastPathAll s hfp c hc
        rw [saslPred_of_ascii c h.1 h.2] at hpred
        cases hpred
      · rw [if_neg hfp]
        exact prohibitedAndBidi_of_find sv saslPred _ d hfind
  · intro c hc hpred
    cases hfind : (nameNormalized sv s).find? namePred with
    | none => exact absurd hpred (List.find?_eq_none.mp hfind c hc)
    | some d =>
      obtain ⟨hd, pre, post, hsplit, hpre⟩ := find?_eq_some_split _ _ _ hfind
      exact ⟨d, pre, post, prohibitedAndBidi_of_find sv namePred _ d hfind, hd, hsplit, hpre⟩

/-- Witness for C4: the control character U+0007 under `saslprep` and the
non-ASCII space U+00A0 under `nameprep`. -/
theorem claim_C4_witness :
    (∃ d pre post, saslprep svPlain [0x07] = some (.error (.ProhibitedCharacter d)) ∧
      saslPred d = true ∧ saslNormalized svPlain [0x07] = pre ++ d :: post ∧
      ∀ x ∈ pre, saslPred x = false) ∧
    (∃ d pre post, nameprep svPlain [0xA0] = some (.error (.ProhibitedCharacter d)) ∧
      namePred d = true ∧ nameNormalized svPlain [0xA0] = pre ++ d :: post ∧
      ∀ x ∈ pre, namePred x = false) :=
  ⟨(claim_C4_first_prohibited_and_sets svPlain [0x07] (fun _ _ => rfl)).2.1 0x07
      (by decide) (by decide),
   (claim_C4_first_prohibited_and_sets svPlain [0xA0] (fun _ _ => rfl)).2.2 0xA0
      (by decide) (by decide)⟩

/-- C5: once the prohibition scan passes, each pipeline reports
`ProhibitedBidirectionalText` (which carries no code point) exactly when
the normalized string contains an R/AL code point and either also
contains an L code point or fails the first/last R/AL requirement; with
no R/AL code point the stage accepts regardless of L code points.  The
two service contracts are needed only for `saslprep`'s fast path. -/
theorem claim_C5_bidi_iff (sv : Services) (s : List Nat)
    (hnfkc : ∀ l, (∀ c ∈ l, c < 0x80) → sv.nfkc l = l)
    (hbidi : ∀ c, c < 0x80 → bidi_r_or_al sv.bidiClass c = false) :
    ((saslNormalized sv s).find? saslPred = none →
      (saslprep sv s = some (.error .ProhibitedBidirectionalText) ↔
        bidiViolation sv (saslNormalized sv s))) ∧
    ((nameNormalized sv s).find? namePred = none →
      (nameprep sv s = some (.error .ProhibitedBidirectionalText) ↔
        bidiViolation sv (nameNormalized sv s))) := by
  constructor
  · intro hpass
    unfold saslprep
    by_cases hfp : s.all (fun c => is_ascii c && !ascii_control_character c) = true
    · rw [if_pos hfp]
      have hnorm := saslNormalized_fast_path sv s hnfkc hfp
      constructor
      · intro h
        simp at h
      · intro hv
        exfalso
        have hfalse : (saslNormalized sv s).any (bidi_r_or_al sv.bidiClass) = false := by
          rw [hnorm, List.any_eq_false]
          intro x hx
          rw [hbidi x (fastPathAll s hfp x hx).1]
          simp
        rw [hv.1] at hfalse
        cases hfalse
    · rw [if_neg hfp]
      exact (prohibitedAndBidi_of_none sv saslPred _ hpass).1
  · intro hpass
    unfold nameprep
    exact (prohibitedAndBidi_of_none sv namePred _ hpass).1

/-- Witness for C5: an R-class code point followed by an L-class one is
rejected as bidirectional text by both pipelines. -/
theorem claim_C5_witness :
    saslprep svHeb [0x5D0, 0x41] = some (.error .ProhibitedBidirectionalText) ∧
    nameprep svHeb [0x5D0, 0x41] = some (.error .ProhibitedBidirectionalText) := by
  have hbidi : ∀ c, c < 0x80 → bidi_r_or_al svHeb.bidiClass c = false := by
    intro c hc
    have hne : c ≠ 0x5D0 := by omega
    simp [bidi_r_or_al, svHeb, hne]
  have h := claim_C5_bidi_iff svHeb [0x5D0, 0x41] (fun _ _ => rfl) hbidi
  exact ⟨(h.1 (by decide)).mpr ⟨by decide, Or.inl (by decide)⟩,
         (h.2 (by decide)).mpr ⟨by decide, Or.inl (by decide)⟩⟩

/-- C6: `nameprep` is not idempotent.  With services mirroring real
Unicode at U+2102 (double-struck C: no lowercase mapping, NFKC
compatibility mapping to "C") and at ASCII C/c, the first run yields
"C" and the second run yields "c", because the FIXME `to_lowercase`
proxy runs before NFKC, which can reintroduce uppercase. -/
theorem claim_C6_nameprep_not_idempotent :
    nameprep svDoubleStruckC [0x2102] = some (.ok [0x43]) ∧
    nameprep svDoubleStruckC [0x43] = some (.ok [0x63]) ∧
    ([0x43] : List Nat) ≠ [0x63] :=
  ⟨by decide, by decide, by decide⟩

/-- C9: both pipelines are total — they always return a value (`Ok` or
one of the two errors) and never reach the modelled panic, because the
`unwrap`s run only when the normalized string contains an R/AL code
point and is therefore non-empty. -/
theorem claim_C9_total (sv : Services) (s : List Nat) :
    (saslprep sv s).isSome = true ∧ (nameprep sv s).isSome = true := by
  constructor
  · unfold saslprep
    by_cases hfp : s.all (fun c => is_ascii c && !ascii_control_character c) = true
    · rw [if_pos hfp]
      rfl
    · rw [if_neg hfp]
      exact prohibitedAndBidi_isSome sv saslPred _
  · unfold nameprep
    exact prohibitedAndBidi_isSome sv namePred _

/-- C10: `surrogate_code` is constantly false, and no
`ProhibitedCharacter` error of either pipeline can carry a code point in
the surrogate range, since no prohibition predicate holds there. -/
theorem claim_C10_surrogate_never_fires :
    (∀ c, surrogate_code c = false) ∧
    (∀ sv s d, saslprep sv s = some (.error (.ProhibitedCharacter d)) →
      ¬(0xD800 ≤ d ∧ d ≤ 0xDFFF)) ∧
    (∀ sv s d, nameprep sv s = some (.error (.ProhibitedCharacter d)) →
      ¬(0xD800 ≤ d ∧ d ≤ 0xDFFF)) := by
  refine ⟨fun _ => rfl, ?_, ?_⟩
  · intro sv s d h hd
    unfold saslprep at h
    by_cases hfp : s.all (fun c => is_ascii c && !ascii_control_character c) = true
    · rw [if_pos hfp] at h
      simp at h
    · rw [if_neg hfp] at h
      have hfind := prohibitedAndBidi_char_inv sv saslPred _ d h
      have hpred : saslPred d = true := List.find?_some hfind
      rw [saslPred_of_surrogate d hd] at hpred
      cases hpred
  · intro sv s d h hd
    unfold nameprep at h
    have hfind := prohibitedAndBidi_char_inv sv namePred _ d h
    have hpred : namePred d = true := List.find?_some hfind
    rw [namePred_of_surrogate d hd] at hpred
    cases hpred

/-- Witness for C10 at two concrete prohibited-character runs. -/
theorem claim_C10_witness :
    ¬(0xD800 ≤ 0x07 ∧ (0x07 : Nat) ≤ 0xDFFF) ∧
    ¬(0xD800 ≤ 0xA0 ∧ (0xA0 : Nat) ≤ 0xDFFF) :=
  ⟨claim_C10_surrogate_never_fires.2.1 svPlain [0x07] 0x07 (by decide),
   claim_C10_surrogate_never_fires.2.2 svPlain [0xA0] 0xA0 (by decide)⟩

end Stringprep
